import Mathlib

/-!
Verification of `DefaultIndexManager` (workspace symbol index).

Shallow embedding of `DefaultIndexManager` from `src/workspace/index-manager.ts`:
the per-document symbol index, reference index, memoized global scope cache,
update orchestration, removal, affected-document analysis and reference lookup.

JavaScript `Map` objects (which preserve insertion order and keep the original
position of a key on overwrite) are embedded as association lists over string
keys.  External collaborators (the AST reflection's `isSubtype`, the extractors,
the document store) are passed in as explicit parameters.
-/

set_option autoImplicit false

namespace IndexManager

/-- Insertion-ordered string-keyed map, as a JS `Map` with unique keys. -/
abbrev JsMap (α : Type) := List (String × α)

/-- JS `Map.prototype.get`: value of the first (in a well-formed map, only) entry
with the given key, or `none`. -/
def mapGet {α : Type} (m : JsMap α) (k : String) : Option α :=
  match m with
  | [] => none
  | (k', v) :: rest => if k' = k then some v else mapGet rest k

/-- JS `Map.prototype.set`: overwrite the value at an existing key in place
(keeping its position), otherwise append a new entry at the end. -/
def mapSet {α : Type} (m : JsMap α) (k : String) (v : α) : JsMap α :=
  match m with
  | [] => [(k, v)]
  | (k', v') :: rest => if k' = k then (k, v) :: rest else (k', v') :: mapSet rest k v

/-- JS `Map.prototype.delete`: drop every entry with the given key
(a well-formed map has at most one). -/
def mapDelete {α : Type} (m : JsMap α) (k : String) : JsMap α :=
  match m with
  | [] => []
  | (k', v') :: rest => if k' = k then mapDelete rest k else (k', v') :: mapDelete rest k

/-- JS `Array.from(m.values())`: the values in insertion order. -/
def mapValues {α : Type} (m : JsMap α) : List α :=
  m.map (·.2)

/-- Modelled from the spec: resource identifiers (`URI`) are value-equal
canonical strings, and `equalURI` (from `utils/uri-util`, not under `src/`)
compares their string forms. -/
def equalURI (a b : String) : Bool :=
  a == b

/-- Modelled from the spec: an AST node, reduced to the one capability the
index manager consumes — `ownerOf(node) -> documentId` ("document of node"). -/
structure AstNode where
  docUri : String
  deriving DecidableEq, Repr

/-- Modelled from the spec: `getDocument(node).uri` (from `utils/ast-util`,
not under `src/`) — the owning document's identifier. -/
def getDocumentUri (n : AstNode) : String :=
  n.docUri

/-- Type `AstNodeDescription`: name, type tag, owning document id, AST path, and an
optional transient node reference that must be stripped before storage. -/
structure AstNodeDescription where
  node : Option AstNode
  name : String
  type : String
  documentUri : String
  path : String
  deriving DecidableEq, Repr

/-- Type `ReferenceDescription`: source/target document ids and paths plus the
`local` flag (`local` is a Lean keyword, hence `isLocal`). -/
structure ReferenceDescription where
  sourceUri : String
  sourcePath : String
  targetUri : String
  targetPath : String
  isLocal : Bool
  deriving DecidableEq, Repr

/-- A live in-document reference as visible on `document.references`; the index
manager only inspects whether its `error` property is set. -/
structure Reference where
  error : Option String
  deriving DecidableEq, Repr

/-- Modelled from the spec: the document lifecycle states the orchestration
advances to ("content indexed", "references indexed"); `DocumentState` lives in
`workspace/documents.ts`, not under `src/`. -/
inductive DocumentState where
  | Changed
  | Parsed
  | IndexedContent
  | Linked
  | IndexedReferences
  | Validated
  deriving DecidableEq, Repr

/-- Type `LangiumDocument`, reduced to the fields the index manager reads or
writes: canonical uri, lifecycle state, recorded references. -/
structure LangiumDocument where
  uri : String
  state : DocumentState
  references : List Reference
  deriving DecidableEq, Repr

/-- Type `ScopeOptions` (`references/scope.ts`): configuration accepted by the scope
constructor. -/
structure ScopeOptions where
  caseInsensitive : Bool
  deriving DecidableEq, Repr

/-- Modelled from the spec: a `MapScope` (`references/scope.ts`, not under
`src/`) is fully determined by its constructor arguments — the element list, no
outer scope at the global level, and the options; `getAllElements` yields the
elements. -/
structure Scope where
  elements : List AstNodeDescription
  options : Option ScopeOptions
  deriving DecidableEq, Repr

/-- Method `Scope.getAllElements`: all descriptions bound in the scope. -/
def Scope.getAllElements (s : Scope) : List AstNodeDescription :=
  s.elements

/-- The mutable fields of `DefaultIndexManager`. -/
structure IndexState where
  simpleIndex : JsMap (List AstNodeDescription)
  referenceIndex : JsMap (List ReferenceDescription)
  globalScopeCache : JsMap Scope
  allElementsCache : List AstNodeDescription
  deriving DecidableEq, Repr

/-- The empty index manager state (all maps fresh). -/
def initialState : IndexState :=
  { simpleIndex := [], referenceIndex := [], globalScopeCache := [], allElementsCache := [] }

/-- Method `findAllReferences(targetNode, astNodePath)`: resolve the target node's
document uri, then scan every document's reference list with nested `forEach`,
pushing each description whose target uri equals it and whose target path
equals `astNodePath`. -/
def findAllReferences (s : IndexState) (targetNode : AstNode) (astNodePath : String) :
    List ReferenceDescription :=
  let targetDocUri := getDocumentUri targetNode
  (mapValues s.referenceIndex).foldl
    (fun result docRefs =>
      docRefs.foldl
        (fun result refDescr =>
          if equalURI refDescr.targetUri targetDocUri && refDescr.targetPath == astNodePath then
            result ++ [refDescr]
          else
            result)
        result)
    []

/-- Result of one `globalScope` call: the returned scope, the post-call state,
and how many times the call invoked the reflection's `isSubtype` predicate
(instrumentation; it does not influence the computation). -/
structure GlobalScopeResult where
  scope : Scope
  state : IndexState
  isSubtypeCalls : Nat
  deriving DecidableEq, Repr

/-- The rebuild step at the top of `globalScope`: the flattened element list is
recomputed from the symbol index when (and only when) it is empty, i.e.
`Array.from(this.simpleIndex.values()).flat()`. -/
def computeAllElements (s : IndexState) : List AstNodeDescription :=
  if s.allElementsCache.length == 0 then
    (mapValues s.simpleIndex).flatten
  else
    s.allElementsCache

/-- Method `globalScope(nodeType = '', scopeOptions?)`: rebuild the flattened element
list if it is empty, then serve the scope memoized under the `nodeType` key, or
filter the flattened list through `isSubtype(e.type, nodeType)`, build a
`MapScope` with `scopeOptions`, cache and return it.  The optional `nodeType`
argument defaults to the empty string. -/
def globalScope (isSubtype : String → String → Bool) (s : IndexState)
    (nodeType? : Option String) (scopeOptions : Option ScopeOptions) : GlobalScopeResult :=
  let nodeType := nodeType?.getD ""
  let allElements := computeAllElements s
  let s1 := { s with allElementsCache := allElements }
  match mapGet s1.globalScopeCache nodeType with
  | some cached =>
      { scope := cached, state := s1, isSubtypeCalls := 0 }
  | none =>
      let elements := allElements.filter (fun e => isSubtype e.type nodeType)
      let scope : Scope := { elements := elements, options := scopeOptions }
      { scope := scope
        state := { s1 with globalScopeCache := mapSet s1.globalScopeCache nodeType scope }
        isSubtypeCalls := allElements.length }

/-- Method `remove(uris)`: for each uri delete its symbol-index and reference-index
entries and clear the global scope cache and the flattened element list. -/
def remove (s : IndexState) (uris : List String) : IndexState :=
  uris.foldl
    (fun st uri =>
      { simpleIndex := mapDelete st.simpleIndex uri
        referenceIndex := mapDelete st.referenceIndex uri
        globalScopeCache := []
        allElementsCache := [] })
    s

/-- Method `updateContent(document, cancelToken)`: clear the scope cache and flattened
list, then run the export extractor.  The extractor's outcome (a value, or a
raised cancellation/failure) enters as `exportsResult`; a raised error
propagates (first component `some e`) with no store and no lifecycle advance.
On success each description's transient `node` reference is cleared, the
cleaned list replaces the entry keyed by the document uri, and the document
advances to `IndexedContent`. -/
def updateContent {ε : Type} (s : IndexState) (doc : LangiumDocument)
    (exportsResult : Except ε (List AstNodeDescription)) :
    Option ε × IndexState × LangiumDocument :=
  let s0 := { s with globalScopeCache := ([] : JsMap Scope), allElementsCache := [] }
  match exportsResult with
  | .error e => (some e, s0, doc)
  | .ok exports =>
      let cleaned := exports.map (fun data => { data with node := none })
      (none,
       { s0 with simpleIndex := mapSet s0.simpleIndex doc.uri cleaned },
       { doc with state := DocumentState.IndexedContent })

/-- Method `updateReferences(document, cancelToken)`: run the reference extractor
(outcome passed as `refsResult`); a raised error propagates with the state and
document untouched; on success the description list replaces the entry keyed by
the document uri and the document advances to `IndexedReferences`. -/
def updateReferences {ε : Type} (s : IndexState) (doc : LangiumDocument)
    (refsResult : Except ε (List ReferenceDescription)) :
    Option ε × IndexState × LangiumDocument :=
  match refsResult with
  | .error e => (some e, s, doc)
  | .ok indexData =>
      (none,
       { s with referenceIndex := mapSet s.referenceIndex doc.uri indexData },
       { doc with state := DocumentState.IndexedReferences })

/-- Method `isAffected(document, changed)`: a document is affected if it carries a
reference with a linking error, or if its stored reference-index entry contains
a non-local reference targeting the changed uri. -/
def isAffected (s : IndexState) (document : LangiumDocument) (changed : String) : Bool :=
  if document.references.any (fun e => e.error.isSome) then
    true
  else
    match mapGet s.referenceIndex document.uri with
    | some references =>
        (references.filter (fun e => !e.isLocal)).any (fun e => equalURI e.targetUri changed)
    | none => false

/-- Method `getAffectedDocuments(uris)`: filter the document store's full collection,
dropping documents whose own uri is among `uris` and keeping those `isAffected`
by some uri of the list. -/
def getAffectedDocuments (s : IndexState) (allDocs : List LangiumDocument)
    (uris : List String) : List LangiumDocument :=
  allDocs.filter
    (fun e =>
      if uris.any (fun uri => equalURI e.uri uri) then
        false
      else
        uris.any (fun uri => isAffected s e uri))

/-- All symbol descriptions currently stored, in index iteration order. -/
def allStoredDescriptions (s : IndexState) : List AstNodeDescription :=
  (mapValues s.simpleIndex).flatten

/-- A document carries at least one recorded reference-resolution error. -/
def hasRefError (document : LangiumDocument) : Bool :=
  document.references.any (fun e => e.error.isSome)

/-- The stored reference-index entry of `document` contains a non-local
reference whose target is `changed` (false when there is no entry). -/
def hasNonLocalRefTo (s : IndexState) (document : LangiumDocument) (changed : String) : Bool :=
  match mapGet s.referenceIndex document.uri with
  | some references =>
      (references.filter (fun e => !e.isLocal)).any (fun e => equalURI e.targetUri changed)
  | none => false

section MapLemmas

variable {α : Type}

theorem mapGet_mapSet_self (m : JsMap α) (k : String) (v : α) :
    mapGet (mapSet m k v) k = some v := by
  induction m with
  | nil => simp [mapSet, mapGet]
  | cons hd tl ih =>
      obtain ⟨k', v'⟩ := hd
      by_cases h : k' = k
      · simp [mapSet, mapGet, h]
      · simp [mapSet, mapGet, h, ih]

theorem mapGet_mapSet_ne (m : JsMap α) (k k' : String) (v : α) (h : k ≠ k') :
    mapGet (mapSet m k v) k' = mapGet m k' := by
  induction m with
  | nil => simp [mapSet, mapGet, h]
  | cons hd tl ih =>
      obtain ⟨k₀, v₀⟩ := hd
      by_cases h₀ : k₀ = k
      · subst h₀
        simp [mapSet, mapGet, h]
      · simp only [mapSet, if_neg h₀]
        by_cases h₁ : k₀ = k'
        · simp [mapGet, h₁]
        · simp [mapGet, h₁, ih]

theorem mapSet_keys_nodup (m : JsMap α) (k : String) (v : α)
    (h : (m.map (·.1)).Nodup) : ((mapSet m k v).map (·.1)).Nodup := by
  induction m with
  | nil => simp [mapSet]
  | cons hd tl ih =>
      obtain ⟨k₀, v₀⟩ := hd
      simp only [List.map_cons, List.nodup_cons] at h
      by_cases h₀ : k₀ = k
      · subst h₀
        simpa [mapSet, List.nodup_cons] using h
      · have keys_set : ∀ (t : JsMap α), ((mapSet t k v).map (·.1)) = t.map (·.1) ∨
            ((mapSet t k v).map (·.1)) = t.map (·.1) ++ [k] := by
          intro t
          induction t with
          | nil => simp [mapSet]
          | cons hd' tl' ih' =>
              obtain ⟨k₁, v₁⟩ := hd'
              by_cases h₁ : k₁ = k
              · left; simp [mapSet, h₁]
              · rcases ih' with ih' | ih'
                · left; simp [mapSet, h₁, ih']
                · right; simp [mapSet, h₁, ih']
        simp only [mapSet, if_neg h₀, List.map_cons, List.nodup_cons]
        refine ⟨?_, ih h.2⟩
        rcases keys_set tl with he | he
        · rw [he]; exact h.1
        · rw [he]
          simp only [List.mem_append, List.mem_singleton]
          rintro (hmem | rfl)
          · exact h.1 hmem
          · exact h₀ rfl

end MapLemmas

section ScopeLemmas

/-- Rebuilding the flattened list is stable: after `globalScope` has written
the rebuilt list back (with any scope cache), recomputing yields the same
list as long as the symbol index is unchanged. -/
theorem computeAllElements_stable (s : IndexState) (c : JsMap Scope) :
    computeAllElements
      { s with allElementsCache := computeAllElements s, globalScopeCache := c }
      = computeAllElements s := by
  unfold computeAllElements
  by_cases h : s.allElementsCache.length = 0
  · simp only [h]
    by_cases h' : (mapValues s.simpleIndex).flatten.length = 0
    · simp [h, h']
    · simp [h, h']
  · simp [h]

/-- On a state whose scope cache and flattened list are cleared (the state
every mutation leaves behind), `globalScope` filters the current index contents
with `isSubtype` against the defaulted type filter. -/
theorem globalScope_of_cleared (isSubtype : String → String → Bool) (s : IndexState)
    (h1 : s.globalScopeCache = []) (h2 : s.allElementsCache = [])
    (nodeType? : Option String) (scopeOptions : Option ScopeOptions) :
    (globalScope isSubtype s nodeType? scopeOptions).scope
      = { elements :=
            (allStoredDescriptions s).filter
              (fun e => isSubtype e.type (nodeType?.getD ""))
          options := scopeOptions } := by
  unfold globalScope computeAllElements allStoredDescriptions
  simp [h1, h2, mapGet]

/-- A second `globalScope` call on the state left by a first call (same type
filter, any options) is a cache hit: same scope, same state, zero `isSubtype`
invocations. -/
theorem globalScope_second_call (isSubtype : String → String → Bool) (s : IndexState)
    (nodeType? : Option String) (o1 o2 : Option ScopeOptions) :
    (globalScope isSubtype (globalScope isSubtype s nodeType? o1).state nodeType? o2).scope
        = (globalScope isSubtype s nodeType? o1).scope
      ∧ (globalScope isSubtype (globalScope isSubtype s nodeType? o1).state nodeType? o2).state
        = (globalScope isSubtype s nodeType? o1).state
      ∧ (globalScope isSubtype (globalScope isSubtype s nodeType? o1).state nodeType?
          o2).isSubtypeCalls = 0 := by
  unfold globalScope
  cases hc : mapGet s.globalScopeCache (nodeType?.getD "") with
  | some cached =>
      have hstable := computeAllElements_stable s s.globalScopeCache
      simp only [hc]
      simp only [IndexState.mk.injEq] at hstable ⊢
      simp_all [computeAllElements_stable, hc]
  | none =>
      simp only [hc]
      have hset := mapGet_mapSet_self s.globalScopeCache (nodeType?.getD "")
        ({ elements := (computeAllElements s).filter
              (fun e => isSubtype e.type (nodeType?.getD ""))
           options := o1 } : Scope)
      have hstable := computeAllElements_stable s
        (mapSet s.globalScopeCache (nodeType?.getD "")
          { elements := (computeAllElements s).filter
              (fun e => isSubtype e.type (nodeType?.getD ""))
            options := o1 })
      simp_all

end ScopeLemmas

section QueryLemmas

/-- A fold that pushes every element satisfying `p` collects `l.filter p` after
the accumulator. -/
theorem foldl_push_filter {β : Type} (p : β → Bool) (l acc : List β) :
    l.foldl (fun r x => if p x then r ++ [x] else r) acc = acc ++ l.filter p := by
  induction l generalizing acc with
  | nil => simp
  | cons hd tl ih =>
      by_cases h : p hd <;> simp [h, ih]

/-- The nested `forEach`/push loop of `findAllReferences` collects exactly the
filter of the flattened reference index, in iteration order. -/
theorem findAllReferences_eq_filter (s : IndexState) (targetNode : AstNode)
    (astNodePath : String) :
    findAllReferences s targetNode astNodePath
      = ((mapValues s.referenceIndex).flatten).filter
          (fun r => equalURI r.targetUri (getDocumentUri targetNode)
            && r.targetPath == astNodePath) := by
  unfold findAllReferences
  generalize (mapValues s.referenceIndex) = ls
  suffices h : ∀ acc : List ReferenceDescription,
      ls.foldl
        (fun result docRefs =>
          docRefs.foldl
            (fun result refDescr =>
              if equalURI refDescr.targetUri (getDocumentUri targetNode)
                  && refDescr.targetPath == astNodePath then
                result ++ [refDescr]
              else
                result)
            result)
        acc
      = acc ++ ls.flatten.filter
          (fun r => equalURI r.targetUri (getDocumentUri targetNode)
            && r.targetPath == astNodePath) by
    simpa using h []
  induction ls with
  | nil => simp
  | cons hd tl ih =>
      intro acc
      rw [List.foldl_cons, foldl_push_filter, ih, List.flatten_cons,
        List.filter_append, List.append_assoc]

/-- Helper: `isAffected` is the disjunction of the error check and the non-local
target check. -/
theorem isAffected_eq (s : IndexState) (d : LangiumDocument) (changed : String) :
    isAffected s d changed = (hasRefError d || hasNonLocalRefTo s d changed) := by
  unfold isAffected hasRefError hasNonLocalRefTo
  by_cases h : d.references.any (fun e => e.error.isSome) <;> simp [h]

/-- Helper: `any` of a disjunction with a constant: the constant fires only when the
list is non-empty. -/
theorem any_const_or {β : Type} (l : List β) (c : Bool) (p : β → Bool) :
    l.any (fun u => c || p u) = ((!l.isEmpty) && c || l.any p) := by
  induction l with
  | nil => simp
  | cons h t ih => cases c <;> simp_all

/-- Every step of `remove`'s loop clears both caches, so a non-empty uri list
leaves them cleared. -/
theorem remove_clears_cache (s : IndexState) (uris : List String) (h : uris ≠ []) :
    (remove s uris).globalScopeCache = [] ∧ (remove s uris).allElementsCache = [] := by
  induction uris generalizing s with
  | nil => exact absurd rfl h
  | cons u rest ih =>
      cases rest with
      | nil => simp [remove]
      | cons v rest' =>
          have step := ih
            { simpleIndex := mapDelete s.simpleIndex u
              referenceIndex := mapDelete s.referenceIndex u
              globalScopeCache := []
              allElementsCache := [] }
            (by simp)
          simpa [remove] using step

end QueryLemmas

section Examples

/-- A stored symbol description of type `"A"` with no node reference. -/
def descA : AstNodeDescription :=
  { node := none, name := "a", type := "A", documentUri := "file:///a.lang", path := "/p" }

/-- A legitimate reflection: plain type equality (every type is a subtype of
itself and of nothing else). -/
def subtypeEq : String → String → Bool := fun t u => t == u

/-- A state holding one exported description for one document, with the scope
cache and flattened list invalidated. -/
def st1 : IndexState :=
  { simpleIndex := [("file:///a.lang", [descA])]
    referenceIndex := []
    globalScopeCache := []
    allElementsCache := [] }

/-- A document carrying one recorded reference-resolution error. -/
def docE : LangiumDocument :=
  { uri := "file:///e.lang"
    state := DocumentState.Parsed
    references := [{ error := some "could not resolve" }] }

end Examples

/-- Claim C1, as stated, fails on the no-filter case: `globalScope` defaults
the missing type filter to the empty string and still filters through
`isSubtype(e.type, '')`.  With the reflexive reflection `subtypeEq` and one
stored description of type `"A"`, the unfiltered call returns an empty scope
although the index stores `descA` — not "all stored descriptions". -/
theorem C1_counterexample :
    (globalScope subtypeEq st1 none none).scope.getAllElements = []
      ∧ allStoredDescriptions st1 = [descA] :=
  ⟨rfl, rfl⟩

/-- Claim C1 (amended): for every reflection `isSubtype` and every state whose
scope cache and flattened list are invalidated, `globalScope(T)` returns a
scope containing exactly the stored descriptions whose type satisfies
`isSubtype(type, T)`; a missing filter behaves as the empty-string filter
`isSubtype(type, '')`, which is all descriptions only if the reflection
accepts every type against `''`. -/
theorem C1_globalScope_filters (isSubtype : String → String → Bool) (s : IndexState)
    (h1 : s.globalScopeCache = []) (h2 : s.allElementsCache = [])
    (nodeType? : Option String) (scopeOptions : Option ScopeOptions) :
    (globalScope isSubtype s nodeType? scopeOptions).scope.getAllElements
      = (allStoredDescriptions s).filter
          (fun e => isSubtype e.type (nodeType?.getD "")) := by
  rw [globalScope_of_cleared isSubtype s h1 h2]
  rfl

/-- Claim C1 witness: the filter characterization evaluated on `st1` with the
type filter `"A"`. -/
theorem C1_witness :
    st1.globalScopeCache = [] ∧ st1.allElementsCache = []
      ∧ (globalScope subtypeEq st1 (some "A") none).scope.getAllElements
          = (allStoredDescriptions st1).filter (fun e => subtypeEq e.type "A") :=
  ⟨rfl, rfl, C1_globalScope_filters subtypeEq st1 rfl rfl (some "A") none⟩

/-- Claim C2: when the extractor raises (cancellation or failure), both update
operations propagate the error, store nothing — the symbol index, reference
index and the document (hence its lifecycle state) are exactly as before.
`updateContent` has already cleared the scope cache and flattened list, which
the claim leaves unconstrained. -/
theorem C2_update_failure_frame {ε : Type} (s : IndexState) (doc : LangiumDocument)
    (e : ε) :
    (updateContent s doc (Except.error e)).1 = some e
      ∧ (updateContent s doc (Except.error e)).2.1.simpleIndex = s.simpleIndex
      ∧ (updateContent s doc (Except.error e)).2.1.referenceIndex = s.referenceIndex
      ∧ (updateContent s doc (Except.error e)).2.2 = doc
      ∧ updateReferences s doc (Except.error e) = (some e, s, doc) :=
  ⟨rfl, rfl, rfl, rfl, rfl⟩

/-- Claim C3: a successful `updateContent` and a `remove` with a non-empty uri
list both leave the scope cache and the flattened backing list cleared before
returning, and any subsequent `globalScope(T)` is rebuilt from the
post-mutation index contents, for every `T`. -/
theorem C3_mutations_invalidate_cache (s : IndexState) (doc : LangiumDocument)
    (exports : List AstNodeDescription) (uris : List String) (hne : uris ≠ [])
    (isSubtype : String → String → Bool) (nodeType? : Option String)
    (scopeOptions : Option ScopeOptions) :
    ((updateContent s doc (Except.ok (ε := Unit) exports)).2.1.globalScopeCache = []
        ∧ (updateContent s doc (Except.ok (ε := Unit) exports)).2.1.allElementsCache = [])
      ∧ ((remove s uris).globalScopeCache = [] ∧ (remove s uris).allElementsCache = [])
      ∧ (globalScope isSubtype (updateContent s doc (Except.ok (ε := Unit) exports)).2.1
            nodeType? scopeOptions).scope.getAllElements
          = (allStoredDescriptions
                (updateContent s doc (Except.ok (ε := Unit) exports)).2.1).filter
              (fun e => isSubtype e.type (nodeType?.getD ""))
      ∧ (globalScope isSubtype (remove s uris) nodeType? scopeOptions).scope.getAllElements
          = (allStoredDescriptions (remove s uris)).filter
              (fun e => isSubtype e.type (nodeType?.getD "")) := by
  obtain ⟨hr1, hr2⟩ := remove_clears_cache s uris hne
  refine ⟨⟨rfl, rfl⟩, ⟨hr1, hr2⟩, ?_, ?_⟩
  · rw [globalScope_of_cleared isSubtype _ rfl rfl]
    rfl
  · rw [globalScope_of_cleared isSubtype _ hr1 hr2]
    rfl

/-- Claim C3 witness: both mutations evaluated on `st1` with one concrete
document, export list and uri. -/
theorem C3_witness :
    (["file:///a.lang"] : List String) ≠ []
      ∧ ((updateContent st1 docE (Except.ok (ε := Unit) [descA])).2.1.globalScopeCache = []
          ∧ (updateContent st1 docE
              (Except.ok (ε := Unit) [descA])).2.1.allElementsCache = [])
      ∧ ((remove st1 ["file:///a.lang"]).globalScopeCache = []
          ∧ (remove st1 ["file:///a.lang"]).allElementsCache = [])
      ∧ (globalScope subtypeEq (updateContent st1 docE
            (Except.ok (ε := Unit) [descA])).2.1 (some "A")
            none).scope.getAllElements
          = (allStoredDescriptions (updateContent st1 docE
                (Except.ok (ε := Unit) [descA])).2.1).filter
              (fun e => subtypeEq e.type "A")
      ∧ (globalScope subtypeEq (remove st1 ["file:///a.lang"]) (some "A")
            none).scope.getAllElements
          = (allStoredDescriptions (remove st1 ["file:///a.lang"])).filter
              (fun e => subtypeEq e.type "A") :=
  ⟨by decide,
    C3_mutations_invalidate_cache st1 docE [descA] ["file:///a.lang"] (by decide)
      subtypeEq (some "A") none⟩

/-- All reference descriptions currently stored, in index iteration order
(document insertion order, then within-document order). -/
def allStoredReferences (s : IndexState) : List ReferenceDescription :=
  (mapValues s.referenceIndex).flatten

/-- The affectedness condition stated by the amended claim C4: the document is
not itself changed, and either the changed list is non-empty and the document
records a reference error, or some changed uri is targeted by one of its
stored non-local references. -/
def affectedSpec (s : IndexState) (uris : List String) (d : LangiumDocument) : Bool :=
  !(uris.any (fun uri => equalURI d.uri uri))
    && ((!uris.isEmpty) && hasRefError d
        || uris.any (fun uri => hasNonLocalRefTo s d uri))

/-- Claim C4, as stated, fails for an empty changed list: a document carrying a
recorded reference-resolution error satisfies clause (a) and is not among the
(zero) changed ids, yet `getAffectedDocuments` returns nothing because its loop
over the changed uris never runs. -/
theorem C4_counterexample :
    getAffectedDocuments initialState [docE] [] = []
      ∧ hasRefError docE = true
      ∧ docE.uri ∉ ([] : List String) :=
  ⟨rfl, rfl, List.not_mem_nil docE.uri⟩

/-- Claim C4 (amended): `getAffectedDocuments(changedIds)` returns exactly the
documents that are not themselves changed and satisfy clause (a) — at least one
recorded reference error, provided `changedIds` is non-empty — or clause (b) —
a stored non-local reference targeting a changed id; in particular it never
returns a changed document, and returns nothing for an empty changed list. -/
theorem C4_getAffectedDocuments_filters (s : IndexState)
    (allDocs : List LangiumDocument) (uris : List String) :
    getAffectedDocuments s allDocs uris
      = allDocs.filter (fun d => affectedSpec s uris d) := by
  unfold getAffectedDocuments affectedSpec
  congr 1
  funext e
  by_cases hmem : uris.any (fun uri => equalURI e.uri uri)
  · simp [hmem]
  · simp [hmem, isAffected_eq, any_const_or]

/-- Claim C5: `findAllReferences` returns exactly the stored reference
descriptions, across every document's reference-index entry, whose target uri
equals the target node's owning document uri (value equality) and whose target
path equals the given path (string equality), in index iteration order. -/
theorem C5_findAllReferences_exact (s : IndexState) (targetNode : AstNode)
    (astNodePath : String) :
    findAllReferences s targetNode astNodePath
      = (allStoredReferences s).filter
          (fun r => equalURI r.targetUri (getDocumentUri targetNode)
            && r.targetPath == astNodePath) :=
  findAllReferences_eq_filter s targetNode astNodePath

/-- Claim C6: a second `globalScope` call with the same type filter and no
intervening mutation returns the same scope and performs zero `isSubtype`
invocations (cache hit). -/
theorem C6_consecutive_calls_cached (isSubtype : String → String → Bool)
    (s : IndexState) (nodeType? : Option String) (scopeOptions : Option ScopeOptions) :
    (globalScope isSubtype (globalScope isSubtype s nodeType? scopeOptions).state
        nodeType? scopeOptions).scope
      = (globalScope isSubtype s nodeType? scopeOptions).scope
    ∧ (globalScope isSubtype (globalScope isSubtype s nodeType? scopeOptions).state
        nodeType? scopeOptions).isSubtypeCalls = 0 :=
  ⟨(globalScope_second_call isSubtype s nodeType? scopeOptions scopeOptions).1,
   (globalScope_second_call isSubtype s nodeType? scopeOptions scopeOptions).2.2⟩

/-- Claim C7: the scope cache is keyed by the type filter alone.  If the key is
not yet cached, `globalScope(T, o1)` builds a scope carrying `o1`, and a
subsequent `globalScope(T, o2)` returns that very scope — the second options
argument never enters the cache key and is ignored on the hit. -/
theorem C7_cache_key_ignores_options (isSubtype : String → String → Bool)
    (s : IndexState) (nodeType? : Option String) (o1 o2 : Option ScopeOptions)
    (h : mapGet s.globalScopeCache (nodeType?.getD "") = none) :
    (globalScope isSubtype s nodeType? o1).scope.options = o1
      ∧ (globalScope isSubtype (globalScope isSubtype s nodeType? o1).state
            nodeType? o2).scope
          = (globalScope isSubtype s nodeType? o1).scope := by
  refine ⟨?_, (globalScope_second_call isSubtype s nodeType? o1 o2).1⟩
  unfold globalScope
  simp [h]

/-- Claim C7 witness: on `st1` (empty cache) with filter `"A"`, the first call
stores options `caseInsensitive := true` and the second call with
`caseInsensitive := false` still returns the first scope. -/
theorem C7_witness :
    mapGet st1.globalScopeCache "A" = none
      ∧ ((globalScope subtypeEq st1 (some "A")
            (some { caseInsensitive := true })).scope.options
          = some { caseInsensitive := true }
        ∧ (globalScope subtypeEq
              (globalScope subtypeEq st1 (some "A")
                (some { caseInsensitive := true })).state
              (some "A") (some { caseInsensitive := false })).scope
            = (globalScope subtypeEq st1 (some "A")
                (some { caseInsensitive := true })).scope) :=
  ⟨rfl, C7_cache_key_ignores_options subtypeEq st1 (some "A")
      (some { caseInsensitive := true }) (some { caseInsensitive := false }) rfl⟩

/-- Claim C8: a successful `updateContent` raises nothing, stores under the
document's uri exactly the extracted list with every transient node reference
cleared, and advances the document to the content-indexed state. -/
theorem C8_updateContent_success (s : IndexState) (doc : LangiumDocument)
    (exports : List AstNodeDescription) :
    (updateContent s doc (Except.ok (ε := Unit) exports)).1 = none
      ∧ mapGet (updateContent s doc
            (Except.ok (ε := Unit) exports)).2.1.simpleIndex doc.uri
          = some (exports.map (fun data => { data with node := none }))
      ∧ (exports.map (fun data => { data with node := none })).all
          (fun d => d.node.isNone) = true
      ∧ (updateContent s doc (Except.ok (ε := Unit) exports)).2.2.state
          = DocumentState.IndexedContent := by
  refine ⟨rfl, mapGet_mapSet_self _ _ _, ?_, rfl⟩
  simp

/-- Claim C9: updating document A touches only A's entry of the affected index:
B's entries of both indices are unchanged (distinct uris), the other index is
untouched entirely, A's entry is wholly replaced (never merged), and key
uniqueness of both indices is preserved. -/
theorem C9_frame_isolation (s : IndexState) (docA docB : LangiumDocument)
    (exports : List AstNodeDescription) (refs : List ReferenceDescription)
    (h : docA.uri ≠ docB.uri)
    (hA : (s.simpleIndex.map (·.1)).Nodup)
    (hB : (s.referenceIndex.map (·.1)).Nodup) :
    mapGet (updateContent s docA
          (Except.ok (ε := Unit) exports)).2.1.simpleIndex docB.uri
        = mapGet s.simpleIndex docB.uri
      ∧ (updateContent s docA (Except.ok (ε := Unit) exports)).2.1.referenceIndex
        = s.referenceIndex
      ∧ mapGet (updateReferences s docA
            (Except.ok (ε := Unit) refs)).2.1.referenceIndex docB.uri
          = mapGet s.referenceIndex docB.uri
      ∧ (updateReferences s docA (Except.ok (ε := Unit) refs)).2.1.simpleIndex
        = s.simpleIndex
      ∧ mapGet (updateContent s docA
            (Except.ok (ε := Unit) exports)).2.1.simpleIndex docA.uri
          = some (exports.map (fun data => { data with node := none }))
      ∧ mapGet (updateReferences s docA
            (Except.ok (ε := Unit) refs)).2.1.referenceIndex docA.uri
          = some refs
      ∧ ((updateContent s docA
            (Except.ok (ε := Unit) exports)).2.1.simpleIndex.map (·.1)).Nodup
      ∧ ((updateReferences s docA
            (Except.ok (ε := Unit) refs)).2.1.referenceIndex.map (·.1)).Nodup :=
  ⟨mapGet_mapSet_ne _ _ _ _ h, rfl, mapGet_mapSet_ne _ _ _ _ h, rfl,
    mapGet_mapSet_self _ _ _, mapGet_mapSet_self _ _ _,
    mapSet_keys_nodup _ _ _ hA, mapSet_keys_nodup _ _ _ hB⟩

/-- A second document, distinct from the one stored in `st1`. -/
def docB2 : LangiumDocument :=
  { uri := "file:///b.lang", state := DocumentState.Parsed, references := [] }

/-- The document owning the entry stored in `st1`. -/
def docA2 : LangiumDocument :=
  { uri := "file:///a.lang", state := DocumentState.Parsed, references := [] }

/-- A non-local reference from `docB2` to `descA`'s node in `docA2`. -/
def refBA : ReferenceDescription :=
  { sourceUri := "file:///b.lang", sourcePath := "/q"
    targetUri := "file:///a.lang", targetPath := "/p", isLocal := false }

/-- Claim C9 witness: updating `docA2` on `st1` leaves `docB2`'s (absent)
symbol-index entry unchanged. -/
theorem C9_witness :
    docA2.uri ≠ docB2.uri
      ∧ mapGet (updateContent st1 docA2
            (Except.ok (ε := Unit) [descA])).2.1.simpleIndex docB2.uri
          = mapGet st1.simpleIndex docB2.uri :=
  ⟨by decide,
    (C9_frame_isolation st1 docA2 docB2 [descA] [refBA]
        (by decide) (by decide) (by decide)).1⟩

/-- Claim C10: `remove` with an empty uri list is a complete no-op on the
whole state, while `remove` with any non-empty uri list — whether or not any
of the uris has an index entry — leaves the scope cache and the flattened
element list cleared. -/
theorem C10_remove_empty_noop (s : IndexState) (uris : List String)
    (h : uris ≠ []) :
    remove s [] = s
      ∧ (remove s uris).globalScopeCache = []
      ∧ (remove s uris).allElementsCache = [] :=
  ⟨rfl, (remove_clears_cache s uris h).1, (remove_clears_cache s uris h).2⟩

/-- Claim C10 witness: removing a uri that has no index entry still clears the
caches, and removing nothing changes nothing. -/
theorem C10_witness :
    (["file:///zzz.lang"] : List String) ≠ []
      ∧ remove st1 [] = st1
      ∧ (remove st1 ["file:///zzz.lang"]).globalScopeCache = []
      ∧ (remove st1 ["file:///zzz.lang"]).allElementsCache = [] :=
  ⟨by decide, C10_remove_empty_noop st1 ["file:///zzz.lang"] (by decide)⟩

end IndexManager
